import Mathlib

/-!
Shallow embedding of the decision-and-ledger engine of the finmem-india
repository, together with theorems settling the frozen claims about it.

Embedded components and their sources:
* `Puppy.Portfolio` — `src/puppy/utils/portfolio.py` (`Portfolio.buy`,
  `Portfolio.sell`, `Portfolio.get_total_value`, `Portfolio._record_transaction`).
* `Puppy.Memory`    — `src/puppy/models/memory.py` (`LayeredMemory`).
* `Puppy.Risk`      — `src/puppy/models/llm.py` (`GeminiTrader._apply_risk_rules`).
* `TradingSystem`   — `src/trading_system.py` (`TechnicalAnalyzer.calculate_indicators`,
  `LayeredMemorySystem.calculate_importance_score`, `PaperTradingEngine.execute_sell`).

Modelling conventions: Python floats are modelled as exact rationals (`Rat`);
Python `int(x)` truncation toward zero is `pyInt`; Python dictionaries keyed by
symbol are association lists with the insertion-order update semantics of
`dict` (`setPos`); a raised-and-caught exception becomes an explicit early
return carrying exactly the state mutated before the raise point.
-/

set_option maxRecDepth 10000

/-- Python `int(x)` applied to a rational: truncation toward zero
(`Int.div` is t-division, which matches CPython for a float operand). -/
def pyInt (q : Rat) : Int := q.num.tdiv q.den

namespace Puppy

/-- A held position, the value of `self.positions[symbol]` in
`src/puppy/utils/portfolio.py`: a dict with keys `quantity` and `price`
(the average entry price). -/
structure Pos where
  quantity : Int
  price : Rat
deriving Repr, DecidableEq

/-- In-memory transaction record appended to `self.transactions` by
`Portfolio._record_transaction` (the `timestamp` field, wall-clock I/O,
is not modelled). -/
structure Txn where
  action : String
  symbol : String
  quantity : Int
  price : Rat
  value : Rat
deriving Repr, DecidableEq

/-- Row written by `Portfolio._record_transaction` through
`TradeLogger.log_trade` (CSV side channel; timestamp again elided). -/
structure LogRow where
  action : String
  symbol : String
  quantity : Int
  price : Rat
  value : Rat
  cash_after_trade : Rat
  portfolio_value : Rat
  profit_loss : Rat
  profit_loss_pct : Rat
  reason : String
deriving Repr, DecidableEq

/-- The environment a `Portfolio` observes through its
`RealTimeDataManager` (`src/puppy/utils/real_time_data.py`): the market
open flag (`is_market_open`) and the per-symbol real-time price feed
(`get_real_time_price`, `None` when unavailable). -/
structure Env where
  marketOpen : Bool
  priceOf : String → Option Rat

/-- The mutable state of a `Portfolio` object. -/
structure PortfolioState where
  initial_capital : Rat
  cash : Rat
  position_size_limit : Rat
  positions : List (String × Pos)
  transactions : List Txn
  tradeLog : List LogRow
deriving DecidableEq

/-- `Portfolio.__init__(initial_capital, position_size_limit)`. -/
def mkPortfolio (initial_capital : Rat) (position_size_limit : Rat) : PortfolioState :=
  { initial_capital := initial_capital
    cash := initial_capital
    position_size_limit := position_size_limit
    positions := []
    transactions := []
    tradeLog := [] }

/-- Dictionary lookup `self.positions.get(symbol)` on the association list. -/
def lookupPos : List (String × Pos) → String → Option Pos
  | [], _ => none
  | (k, v) :: rest, sym => if k = sym then some v else lookupPos rest sym

/-- Dictionary update `self.positions[symbol] = pos`: replaces in place when
the key exists (Python dicts keep the original slot), appends otherwise. -/
def setPos : List (String × Pos) → String → Pos → List (String × Pos)
  | [], sym, pos => [(sym, pos)]
  | (k, v) :: rest, sym, pos =>
      if k = sym then (sym, pos) :: rest else (k, v) :: setPos rest sym pos

/-- Dictionary deletion `del self.positions[symbol]`. -/
def erasePos : List (String × Pos) → String → List (String × Pos)
  | [], _ => []
  | (k, v) :: rest, sym => if k = sym then rest else (k, v) :: erasePos rest sym

/-- `current_prices.get(symbol) or pos["price"]`: Python `or` falls back not
only on `None` but on any falsy value, so a real-time price of `0.0` also
falls back to the stored entry price. -/
def priceOrFallback (rt : Option Rat) (fallback : Rat) : Rat :=
  match rt with
  | some v => if v = 0 then fallback else v
  | none => fallback

/-- `Portfolio.get_total_value`: cash when there are no positions, otherwise
cash plus the sum of quantity times real-time price with fallback to the
stored entry price. -/
def get_total_value (env : Env) (st : PortfolioState) : Rat :=
  if st.positions = [] then st.cash
  else st.cash +
    (st.positions.map (fun sp => sp.2.quantity * priceOrFallback (env.priceOf sp.1) sp.2.price)).sum

/-- Tail of `Portfolio._record_transaction`: appends the in-memory
transaction and the trade-logger row (the row records the portfolio value
recomputed on the already-mutated state). -/
def record_transaction (env : Env) (st : PortfolioState) (action : String)
    (symbol : String) (quantity : Int) (price : Rat) (reason : String)
    (profit_loss : Rat) (profit_loss_pct : Rat) : PortfolioState :=
  let value := quantity * price
  let pv := get_total_value env st
  { st with
    transactions := st.transactions ++
      [{ action := action, symbol := symbol, quantity := quantity,
         price := price, value := value }]
    tradeLog := st.tradeLog ++
      [{ action := action, symbol := symbol, quantity := quantity,
         price := price, value := value, cash_after_trade := st.cash,
         portfolio_value := pv,
         profit_loss := if action = "SELL" then profit_loss else 0,
         profit_loss_pct := if action = "SELL" then profit_loss_pct else 0,
         reason := reason }] }

/-- The affordability block of `Portfolio.buy`: when the cost exceeds the
available cash, shrink the order to `int(cash / price)` and reject
(`none`) when that falls below the 100-share minimum.  A zero price makes
the division raise `ZeroDivisionError`, which the method's `except` clause
turns into a plain `False` return before any mutation — also `none` here. -/
def buy_cash_check (st : PortfolioState) (quantity : Int) (price : Rat) : Option Int :=
  let cost := quantity * price
  if cost > st.cash then
    if price = 0 then none
    else
      let q := pyInt (st.cash / price)
      if q < 100 then none else some q
  else some quantity

/-- The position-size-ceiling block of `Portfolio.buy`: when the (possibly
already shrunk) cost exceeds the ceiling fraction `limit` of the portfolio
value `pv`, shrink to `int(pv * limit / price)` and reject below 100
shares.  The caller has already ruled out `pv = 0` (that raises at the
ratio), and `price = 0` raises inside this block's own division. -/
def buy_ceiling_check (pv limit : Rat) (q1 : Int) (price : Rat) : Option Int :=
  if q1 * price / pv > limit then
    if price = 0 then none
    else
      let maxq := pyInt (pv * limit / price)
      if maxq < 100 then none else some maxq
  else some q1

/-- The execution tail of `Portfolio.buy` (debit, weighted-average merge,
records).  A merged total quantity of zero raises `ZeroDivisionError` at
the average-price division AFTER the cash debit, so that path returns
`False` with the cash already changed. -/
def buy_exec (env : Env) (st : PortfolioState) (symbol : String) (q2 : Int)
    (price : Rat) (reason : String) : Bool × PortfolioState :=
  let cost2 := q2 * price
  let cash2 := st.cash - cost2
  match lookupPos st.positions symbol with
  | some pos =>
    let totalQ := pos.quantity + q2
    if totalQ = 0 then (false, { st with cash := cash2 })
    else
      let totalCost := pos.quantity * pos.price + cost2
      let avg := totalCost / totalQ
      let st2 := { st with
        cash := cash2
        positions := setPos st.positions symbol ⟨totalQ, avg⟩ }
      (true, record_transaction env st2 "BUY" symbol q2 price reason 0 0)
  | none =>
    let st2 := { st with
      cash := cash2
      positions := setPos st.positions symbol ⟨q2, price⟩ }
    (true, record_transaction env st2 "BUY" symbol q2 price reason 0 0)

/-- `Portfolio.buy(symbol, quantity, price, reason)`, assembled from the
three blocks above in source order: affordability shrink, position-size
ceiling shrink (a zero portfolio value raises at the ceiling ratio before
any mutation, hence the `(false, st)` early return), then execution. -/
def buy (env : Env) (st : PortfolioState) (symbol : String) (quantity : Int)
    (price : Rat) (reason : String) : Bool × PortfolioState :=
  match buy_cash_check st quantity price with
  | none => (false, st)
  | some q1 =>
    let pv := get_total_value env st
    if pv = 0 then (false, st)
    else
      match buy_ceiling_check pv st.position_size_limit q1 price with
      | none => (false, st)
      | some q2 => buy_exec env st symbol q2 price reason

/-- `Portfolio.sell(symbol, quantity, price, reason)`.

Mirrors the source: the market-hours gate (`is_market_open`), the holding
check, the clamp of the requested quantity to the held quantity, the cash
credit, the realized profit/loss, the position update (removal at zero
remaining), and the records.  The profit-loss-percentage division by the
entry price happens AFTER the cash credit in the source, so a held entry
price of zero raises `ZeroDivisionError` there and the caught exception
returns `False` with the cash already credited. -/
def sell (env : Env) (st : PortfolioState) (symbol : String) (quantity : Int)
    (price : Rat) (reason : String) : Bool × PortfolioState :=
  if env.marketOpen = false then (false, st)
  else
    match lookupPos st.positions symbol with
    | none => (false, st)
    | some pos =>
      let q := if quantity > pos.quantity then pos.quantity else quantity
      let proceeds := q * price
      let cash2 := st.cash + proceeds
      if pos.price = 0 then (false, { st with cash := cash2 })
      else
        let pl := (price - pos.price) * q
        let plPct := (price - pos.price) / pos.price * 100
        let remaining := pos.quantity - q
        let positions2 :=
          if remaining > 0 then setPos st.positions symbol ⟨remaining, pos.price⟩
          else erasePos st.positions symbol
        let st2 := { st with cash := cash2, positions := positions2 }
        (true, record_transaction env st2 "SELL" symbol q price reason pl plPct)

/-- A ledger mutation through the public `Portfolio` API. -/
inductive Op where
  | buyOp (symbol : String) (quantity : Int) (price : Rat) (reason : String)
  | sellOp (symbol : String) (quantity : Int) (price : Rat) (reason : String)

/-- Apply one operation, keeping the resulting state (the Boolean outcome
is reported to the caller and does not influence subsequent state). -/
def applyOp (env : Env) (st : PortfolioState) : Op → PortfolioState
  | .buyOp s q p r => (buy env st s q p r).2
  | .sellOp s q p r => (sell env st s q p r).2

/-- Apply a sequence of buy/sell operations in order. -/
def applyOps (env : Env) (st : PortfolioState) (ops : List Op) : PortfolioState :=
  ops.foldl (applyOp env) st

/-- An operation requests a positive quantity whenever it is a buy. -/
def buyPositive : Op → Prop
  | .buyOp _ q _ _ => 0 < q
  | .sellOp _ _ _ _ => True

/-- Every position in the ledger has positive quantity. -/
def PosPositive (st : PortfolioState) : Prop :=
  ∀ p ∈ st.positions, 0 < p.2.quantity

/-- Every position in the ledger has positive quantity and positive
average entry price. -/
def GoodPositions (st : PortfolioState) : Prop :=
  ∀ p ∈ st.positions, 0 < p.2.quantity ∧ 0 < p.2.price

theorem lookupPos_mem {l : List (String × Pos)} {sym : String} {pos : Pos}
    (h : lookupPos l sym = some pos) : (sym, pos) ∈ l := by
  induction l with
  | nil => simp [lookupPos] at h
  | cons hd tl ih =>
    unfold lookupPos at h
    split at h
    · rename_i heq
      obtain ⟨k, v⟩ := hd
      simp only at heq
      cases h
      simp [heq]
    · exact List.mem_cons_of_mem _ (ih h)

theorem mem_setPos {l : List (String × Pos)} {sym : String} {pos : Pos}
    {entry : String × Pos} (h : entry ∈ setPos l sym pos) :
    entry = (sym, pos) ∨ entry ∈ l := by
  induction l with
  | nil => exact Or.inl (List.mem_singleton.mp h)
  | cons hd tl ih =>
    unfold setPos at h
    split at h
    · rcases List.mem_cons.mp h with h1 | h1
      · exact Or.inl h1
      · exact Or.inr (List.mem_cons_of_mem _ h1)
    · rcases List.mem_cons.mp h with h1 | h1
      · exact Or.inr (h1 ▸ List.mem_cons_self _ _)
      · rcases ih h1 with h2 | h2
        · exact Or.inl h2
        · exact Or.inr (List.mem_cons_of_mem _ h2)

theorem mem_erasePos {l : List (String × Pos)} {sym : String}
    {entry : String × Pos} (h : entry ∈ erasePos l sym) : entry ∈ l := by
  induction l with
  | nil => exact absurd h (List.not_mem_nil entry)
  | cons hd tl ih =>
    unfold erasePos at h
    split at h
    · exact List.mem_cons_of_mem _ h
    · rcases List.mem_cons.mp h with h1 | h1
      · exact h1 ▸ List.mem_cons_self _ _
      · exact List.mem_cons_of_mem _ (ih h1)

theorem lookupPos_setPos_self (l : List (String × Pos)) (sym : String) (pos : Pos) :
    lookupPos (setPos l sym pos) sym = some pos := by
  induction l with
  | nil => simp [setPos, lookupPos]
  | cons hd tl ih =>
    obtain ⟨k, v⟩ := hd
    unfold setPos
    split
    · simp [lookupPos]
    · rename_i hne
      unfold lookupPos
      rw [if_neg hne]
      exact ih

theorem lookupPos_erasePos_self {l : List (String × Pos)} {sym : String}
    (hnd : (l.map Prod.fst).Nodup) : lookupPos (erasePos l sym) sym = none := by
  induction l with
  | nil => simp [erasePos, lookupPos]
  | cons hd tl ih =>
    obtain ⟨k, v⟩ := hd
    simp only [List.map_cons, List.nodup_cons] at hnd
    unfold erasePos
    split
    · rename_i heq
      subst heq
      cases hkey : lookupPos tl k with
      | none => rfl
      | some pos =>
        exact absurd (List.mem_map_of_mem Prod.fst (lookupPos_mem hkey)) hnd.1
    · rename_i hne
      unfold lookupPos
      rw [if_neg hne]
      exact ih hnd.2

theorem buy_cash_check_some {st : PortfolioState} {q q1 : Int} {price : Rat}
    (h : buy_cash_check st q price = some q1) : q1 = q ∨ 100 ≤ q1 := by
  simp only [buy_cash_check] at h
  split at h
  · split at h
    · simp at h
    · split at h
      · simp at h
      · rename_i hge
        simp only [Option.some.injEq] at h
        subst h
        exact Or.inr (by omega)
  · simp only [Option.some.injEq] at h
    subst h
    exact Or.inl rfl

theorem buy_ceiling_check_some {pv limit : Rat} {q1 q2 : Int} {price : Rat}
    (h : buy_ceiling_check pv limit q1 price = some q2) : q2 = q1 ∨ 100 ≤ q2 := by
  simp only [buy_ceiling_check] at h
  split at h
  · split at h
    · simp at h
    · split at h
      · simp at h
      · rename_i hge
        simp only [Option.some.injEq] at h
        subst h
        exact Or.inr (by omega)
  · simp only [Option.some.injEq] at h
    subst h
    exact Or.inl rfl

theorem record_transaction_cash (env : Env) (st : PortfolioState) (a sym : String)
    (q : Int) (p : Rat) (r : String) (pl pp : Rat) :
    (record_transaction env st a sym q p r pl pp).cash = st.cash := rfl

theorem record_transaction_positions (env : Env) (st : PortfolioState) (a sym : String)
    (q : Int) (p : Rat) (r : String) (pl pp : Rat) :
    (record_transaction env st a sym q p r pl pp).positions = st.positions := rfl

theorem buy_exec_posPositive (env : Env) (st : PortfolioState) (symbol : String)
    (q2 : Int) (price : Rat) (reason : String)
    (h : PosPositive st) (hq : 0 < q2) :
    PosPositive (buy_exec env st symbol q2 price reason).2 := by
  unfold buy_exec
  cases hl : lookupPos st.positions symbol with
  | none =>
    intro p hp
    simp only [record_transaction_positions] at hp
    rcases mem_setPos hp with h1 | h1
    · rw [h1]; exact hq
    · exact h p h1
  | some pos =>
    dsimp only
    split
    · exact fun p hp => h p hp
    · intro p hp
      simp only [record_transaction_positions] at hp
      rcases mem_setPos hp with h1 | h1
      · rw [h1]
        have hpos := h _ (lookupPos_mem hl)
        dsimp only at hpos ⊢
        omega
      · exact h p h1

theorem buy_posPositive (env : Env) (st : PortfolioState) (symbol : String)
    (quantity : Int) (price : Rat) (reason : String)
    (h : PosPositive st) (hq : 0 < quantity) :
    PosPositive (buy env st symbol quantity price reason).2 := by
  unfold buy
  cases h1 : buy_cash_check st quantity price with
  | none => exact h
  | some q1 =>
    dsimp only
    by_cases hpv : get_total_value env st = 0
    · rw [if_pos hpv]; exact h
    · rw [if_neg hpv]
      cases h2 : buy_ceiling_check (get_total_value env st) st.position_size_limit q1 price with
      | none => exact h
      | some q2 =>
        have hq1 : 0 < q1 := by rcases buy_cash_check_some h1 with e | e <;> omega
        have hq2 : 0 < q2 := by rcases buy_ceiling_check_some h2 with e | e <;> omega
        exact buy_exec_posPositive env st symbol q2 price reason h hq2

theorem sell_posPositive (env : Env) (st : PortfolioState) (symbol : String)
    (quantity : Int) (price : Rat) (reason : String) (h : PosPositive st) :
    PosPositive (sell env st symbol quantity price reason).2 := by
  unfold sell
  split
  · exact h
  · cases hl : lookupPos st.positions symbol with
    | none => exact h
    | some pos =>
      dsimp only
      split
      · exact fun p hp => h p hp
      · intro p hp
        simp only [record_transaction_positions] at hp
        generalize (if quantity > pos.quantity then pos.quantity else quantity) = qc at hp
        split at hp
        · rename_i hrem
          rcases mem_setPos hp with h1 | h1
          · rw [h1]; exact hrem
          · exact h p h1
        · exact h p (mem_erasePos hp)

theorem applyOps_posPositive (env : Env) (st : PortfolioState) (ops : List Op)
    (h : PosPositive st) (hb : ∀ op ∈ ops, buyPositive op) :
    PosPositive (applyOps env st ops) := by
  induction ops generalizing st with
  | nil => exact h
  | cons op rest ih =>
    have hstep : PosPositive (applyOp env st op) := by
      cases op with
      | buyOp s q p r =>
        exact buy_posPositive env st s q p r h (hb _ (List.mem_cons_self _ _))
      | sellOp s q p r => exact sell_posPositive env st s q p r h
    exact ih _ hstep (fun o ho => hb o (List.mem_cons_of_mem _ ho))

theorem sell_liquidates (env : Env) (st : PortfolioState) (symbol : String)
    (quantity : Int) (price : Rat) (reason : String) (pos : Pos)
    (hopen : env.marketOpen = true)
    (hnd : (st.positions.map Prod.fst).Nodup)
    (hl : lookupPos st.positions symbol = some pos)
    (hq : pos.quantity ≤ quantity) (hp : pos.price ≠ 0) :
    (sell env st symbol quantity price reason).1 = true ∧
    (sell env st symbol quantity price reason).2.cash = st.cash + pos.quantity * price ∧
    lookupPos (sell env st symbol quantity price reason).2.positions symbol = none ∧
    ((sell env st symbol quantity price reason).2.tradeLog.getLast?).map LogRow.profit_loss =
      some ((price - pos.price) * pos.quantity) := by
  unfold sell
  rw [hopen, hl]
  have hne : ¬((true : Bool) = false) := by simp
  rw [if_neg hne]
  dsimp only
  have hclamp : (if quantity > pos.quantity then pos.quantity else quantity) = pos.quantity := by
    split
    · rfl
    · rename_i hgt
      omega
  rw [hclamp, if_neg hp]
  have hrem : ¬(pos.quantity - pos.quantity > 0) := by omega
  rw [if_neg hrem]
  refine ⟨rfl, ?_, ?_, ?_⟩
  · rw [record_transaction_cash]
  · simp only [record_transaction_positions]
    exact lookupPos_erasePos_self hnd
  · unfold record_transaction
    dsimp only
    rw [List.getLast?_concat, Option.map_some']
    rw [if_pos rfl]

theorem buy_fail_unchanged (env : Env) (st : PortfolioState) (symbol : String)
    (quantity : Int) (price : Rat) (reason : String)
    (h : GoodPositions st) (hq : 0 < quantity)
    (hf : (buy env st symbol quantity price reason).1 = false) :
    (buy env st symbol quantity price reason).2 = st := by
  unfold buy at hf ⊢
  cases h1 : buy_cash_check st quantity price with
  | none => rfl
  | some q1 =>
    rw [h1] at hf
    dsimp only at hf ⊢
    by_cases hpv : get_total_value env st = 0
    · rw [if_pos hpv]
    · rw [if_neg hpv] at hf ⊢
      cases h2 : buy_ceiling_check (get_total_value env st) st.position_size_limit q1 price with
      | none => rfl
      | some q2 =>
        rw [h2] at hf
        dsimp only at hf ⊢
        have hq1 : 0 < q1 := by rcases buy_cash_check_some h1 with e | e <;> omega
        have hq2 : 0 < q2 := by rcases buy_ceiling_check_some h2 with e | e <;> omega
        unfold buy_exec at hf ⊢
        cases hl : lookupPos st.positions symbol with
        | none => rw [hl] at hf; simp at hf
        | some pos =>
          rw [hl] at hf
          dsimp only at hf ⊢
          have hposq := (h _ (lookupPos_mem hl)).1
          dsimp only at hposq
          have htq : ¬(pos.quantity + q2 = 0) := by omega
          rw [if_neg htq] at hf
          simp at hf

theorem sell_fail_unchanged (env : Env) (st : PortfolioState) (symbol : String)
    (quantity : Int) (price : Rat) (reason : String)
    (h : GoodPositions st)
    (hf : (sell env st symbol quantity price reason).1 = false) :
    (sell env st symbol quantity price reason).2 = st := by
  unfold sell at hf ⊢
  split at hf
  · rename_i hmkt
    rw [if_pos hmkt]
  · rename_i hmkt
    rw [if_neg hmkt]
    cases hl : lookupPos st.positions symbol with
    | none => rfl
    | some pos =>
      rw [hl] at hf
      dsimp only at hf ⊢
      have hpp : pos.price ≠ 0 := ne_of_gt (h _ (lookupPos_mem hl)).2
      rw [if_neg hpp] at hf
      simp at hf

end Puppy

namespace Puppy.Memory

/-- One stock record inside the `data` list of a memory payload, holding
the keys read by `LayeredMemory._calculate_importance`
(`src/puppy/models/memory.py`).  Every key is optional because the source
reads them with `dict.get`; `MA_20d` and `MA_50d` stand for the source
keys `20d_MA` and `50d_MA` (Lean names cannot start with a digit). -/
structure StockData where
  Volume : Option Rat
  Volume_MA : Option Rat
  Daily_Return : Option Rat
  RSI : Option Rat
  MA_20d : Option Rat
  MA_50d : Option Rat
deriving Repr, DecidableEq

/-- The payload of a memory entry as `_calculate_importance` sees it:
`some stocks` when the `"data"` key is present, `none` otherwise. -/
def MemoryData := Option (List StockData)
deriving DecidableEq, Repr

/-- One loop iteration of `LayeredMemory._calculate_importance`: the four
sequential bonus additions for a single stock record (volume spike +0.3,
daily-return magnitude beyond 5% +0.2, RSI outside [30, 70] +0.2,
moving-average crossover in either direction +0.3). -/
def importance_step (importance : Rat) (s : StockData) : Rat :=
  let volume := s.Volume.getD 0
  let i1 := match s.Volume_MA with
    | some vma => if volume > vma * (3/2) then importance + 3/10 else importance
    | none => importance
  let daily_return := s.Daily_Return.getD 0
  let i2 := if |daily_return| > 5/100 then i1 + 2/10 else i1
  let rsi := s.RSI.getD 50
  let i3 := if rsi < 30 ∨ rsi > 70 then i2 + 2/10 else i2
  match s.MA_20d, s.MA_50d with
  | some a, some b => if a > b then i3 + 3/10 else if a < b then i3 + 3/10 else i3
  | _, _ => i3

/-- `LayeredMemory._calculate_importance`: starts from `0.0`, accumulates
the per-stock bonuses across the `"data"` list, and caps at `1.0`. -/
def calculate_importance (data : MemoryData) : Rat :=
  let importance : Rat := match data with
    | some stocks => stocks.foldl importance_step 0
    | none => 0
  min importance 1

/-- A memory entry as built by `LayeredMemory._create_memory_entry`.
The wall-clock `datetime.now()` timestamp is modelled by a logical clock
that strictly increases across `add_memory` calls, which preserves the
source's tie-breaking behaviour (later entries have later timestamps). -/
structure Entry where
  timestamp : Nat
  mem_type : String
  data : MemoryData
  importance_score : Rat
deriving Repr, DecidableEq

/-- State of a `LayeredMemory` object plus the logical clock. -/
structure MemoryState where
  short_term : List Entry
  long_term : List Entry
  max_short_term : Nat
  max_long_term : Nat
  relevance_threshold : Rat
  clock : Nat
deriving DecidableEq

/-- `LayeredMemory.__init__` from the three config values. -/
def mkMemory (max_short_term max_long_term : Nat) (relevance_threshold : Rat) :
    MemoryState :=
  { short_term := [], long_term := [], max_short_term := max_short_term
    max_long_term := max_long_term, relevance_threshold := relevance_threshold
    clock := 0 }

/-- The sort key used by `_maintain_memory_size`:
`sort(key=lambda x: (importance_score, timestamp), reverse=True)`, i.e.
`a` precedes `b` when `a`'s (importance, timestamp) pair is lexicographically
at or above `b`'s. -/
def entryGe (a b : Entry) : Prop :=
  b.importance_score < a.importance_score ∨
    (b.importance_score = a.importance_score ∧ b.timestamp ≤ a.timestamp)

instance : DecidableRel entryGe := fun a b =>
  inferInstanceAs (Decidable (b.importance_score < a.importance_score ∨
    (b.importance_score = a.importance_score ∧ b.timestamp ≤ a.timestamp)))

instance : IsTotal Entry entryGe := by
  constructor
  intro a b
  unfold entryGe
  rcases lt_trichotomy a.importance_score b.importance_score with h | h | h
  · exact Or.inr (Or.inl h)
  · rcases Nat.le_total a.timestamp b.timestamp with ht | ht
    · exact Or.inr (Or.inr ⟨h, ht⟩)
    · exact Or.inl (Or.inr ⟨h.symm, ht⟩)
  · exact Or.inl (Or.inl h)

instance : IsTrans Entry entryGe := by
  constructor
  intro a b c hab hbc
  unfold entryGe at *
  rcases hab with h1 | ⟨h1, h1t⟩
  · rcases hbc with h2 | ⟨h2, _⟩
    · exact Or.inl (h2.trans h1)
    · exact Or.inl (h2.trans_lt h1)
  · rcases hbc with h2 | ⟨h2, h2t⟩
    · exact Or.inl (h2.trans_eq h1)
    · exact Or.inr ⟨h2.trans h1, h2t.trans h1t⟩

/-- One tier of `LayeredMemory._maintain_memory_size`: stable in-place
sort by (importance, timestamp) descending (Python's stable `list.sort`
with `reverse=True` coincides with insertion sort under `entryGe`),
then truncation to the capacity when over it. -/
def sortTrim (n : Nat) (l : List Entry) : List Entry :=
  let sorted := List.insertionSort entryGe l
  if sorted.length > n then sorted.take n else sorted

/-- `LayeredMemory._maintain_memory_size`, applied to both tiers. -/
def maintain_memory_size (st : MemoryState) : MemoryState :=
  { st with
    short_term := sortTrim st.max_short_term st.short_term
    long_term := sortTrim st.max_long_term st.long_term }

/-- `LayeredMemory.add_memory`: build the entry, append it to short-term,
append it to long-term when its importance reaches the relevance
threshold, then run `_maintain_memory_size`. -/
def add_memory (st : MemoryState) (data : MemoryData) (mem_type : String) :
    MemoryState :=
  let entry : Entry :=
    { timestamp := st.clock, mem_type := mem_type, data := data
      importance_score := calculate_importance data }
  let st1 : MemoryState :=
    { st with
      clock := st.clock + 1
      short_term := st.short_term ++ [entry]
      long_term :=
        if entry.importance_score ≥ st.relevance_threshold then st.long_term ++ [entry]
        else st.long_term }
  maintain_memory_size st1

/-- `LayeredMemory.retrieve_relevant_memories`: the short-term entries at
or above the relevance threshold, followed by the long-term entries at or
above it (the query string is unused by the source). -/
def retrieve_relevant_memories (st : MemoryState) (_query : String) : List Entry :=
  st.short_term.filter (fun m => decide (st.relevance_threshold ≤ m.importance_score)) ++
    st.long_term.filter (fun m => decide (st.relevance_threshold ≤ m.importance_score))

end Puppy.Memory

namespace Puppy.Risk

/-- One parsed trading decision, the per-symbol dict produced by
`GeminiTrader._parse_decisions` (`src/puppy/models/llm.py`). -/
structure Decision where
  action : String
  quantity : Int
  price : Rat
  reason : String
deriving Repr, DecidableEq

/-- The two fields of the portfolio-state dict that
`GeminiTrader._apply_risk_rules` reads. -/
structure PfView where
  cash : Rat
  total_value : Rat
deriving Repr, DecidableEq

/-- The per-symbol loop of `_apply_risk_rules`, threading the simulated
remaining cash.  A buy whose cost exceeds the remaining cash is dropped;
a buy whose cost exceeds the 20% position-size limit is shrunk to
`int(limit / price)`, dropped when that falls below 100 shares, and
otherwise capped at 1000 shares; every surviving decision (including any
non-buy action) is appended in iteration order, and kept buys consume
simulated cash.  (The source's `except (KeyError, TypeError)` arm guards
missing dict keys, which a typed record cannot exhibit; a zero price in
the shrink branch would raise an uncaught `ZeroDivisionError` in Python,
while the total function below yields `pyInt 0 = 0 < 100` and drops the
decision — a corner none of the claims touches.) -/
def apply_risk_rules_go (limit : Rat) : Rat → List (String × Decision) →
    List (String × Decision)
  | _, [] => []
  | cash, (sym, d) :: rest =>
    if d.action = "buy" then
      let cost := d.quantity * d.price
      if cost > cash then apply_risk_rules_go limit cash rest
      else if cost > limit then
        let maxq := pyInt (limit / d.price)
        if maxq < 100 then apply_risk_rules_go limit cash rest
        else
          let d2 := { d with quantity := min maxq 1000 }
          (sym, d2) :: apply_risk_rules_go limit (cash - d2.quantity * d2.price) rest
      else (sym, d) :: apply_risk_rules_go limit (cash - d.quantity * d.price) rest
    else (sym, d) :: apply_risk_rules_go limit cash rest

/-- `GeminiTrader._apply_risk_rules(decisions, portfolio_state)` with the
hard-coded 20% position-size limit. -/
def apply_risk_rules (decisions : List (String × Decision)) (ps : PfView) :
    List (String × Decision) :=
  apply_risk_rules_go (ps.total_value * (2/10)) ps.cash decisions

end Puppy.Risk

namespace TradingSystem

/-- Content dict fields read by
`LayeredMemorySystem.calculate_importance_score` (`src/trading_system.py`). -/
structure MContent where
  price_change_1d : Option Rat
  sentiment : Option Rat
  rsi : Option Rat
deriving Repr, DecidableEq

/-- `LayeredMemorySystem.calculate_importance_score`: base 0.5, a
type-specific bonus (price-change magnitude capped at 0.4, sentiment
magnitude capped at 0.4, +0.3 for extreme RSI), the fixed constant 0.8
for TRADE entries, capped at 1.0. -/
def calculate_importance_score (data_type : String) (content : MContent) : Rat :=
  let base : Rat := 1/2
  let score :=
    if data_type = "PRICE" then base + min (|content.price_change_1d.getD 0| / 10) (4/10)
    else if data_type = "NEWS" then base + min |content.sentiment.getD 0| (4/10)
    else if data_type = "TECHNICAL" then
      (if content.rsi.getD 50 > 70 ∨ content.rsi.getD 50 < 30 then base + 3/10 else base)
    else if data_type = "TRADE" then 8/10
    else base
  min score 1

/-- A holding of the `PaperTradingEngine`
(`self.portfolio[symbol] = {'quantity': ..., 'avg_price': ...}`). -/
structure PTEPos where
  quantity : Int
  avg_price : Rat
deriving Repr, DecidableEq

/-- State of a `PaperTradingEngine`. -/
structure PTEState where
  cash_balance : Rat
  portfolio : List (String × PTEPos)
deriving DecidableEq

/-- Dictionary lookup on the engine's portfolio. -/
def lookupHolding : List (String × PTEPos) → String → Option PTEPos
  | [], _ => none
  | (k, v) :: rest, sym => if k = sym then some v else lookupHolding rest sym

/-- Dictionary update on the engine's portfolio. -/
def setHolding : List (String × PTEPos) → String → PTEPos → List (String × PTEPos)
  | [], sym, pos => [(sym, pos)]
  | (k, v) :: rest, sym, pos =>
      if k = sym then (sym, pos) :: rest else (k, v) :: setHolding rest sym pos

/-- Dictionary deletion on the engine's portfolio. -/
def eraseHolding : List (String × PTEPos) → String → List (String × PTEPos)
  | [], _ => []
  | (k, v) :: rest, sym => if k = sym then rest else (k, v) :: eraseHolding rest sym

/-- `PaperTradingEngine.can_sell`: the symbol is held with at least the
requested quantity. -/
def can_sell (st : PTEState) (symbol : String) (quantity : Int) : Bool :=
  match lookupHolding st.portfolio symbol with
  | some p => decide (quantity ≤ p.quantity)
  | none => false

/-- `PaperTradingEngine.execute_sell(symbol, price, quantity)`: rejected
outright unless `can_sell` holds (no clamping), otherwise credits the
proceeds, decrements the quantity, and removes the holding when the
remaining quantity is exactly zero. -/
def execute_sell (st : PTEState) (symbol : String) (price : Rat) (quantity : Int) :
    Bool × PTEState :=
  if can_sell st symbol quantity = false then (false, st)
  else
    match lookupHolding st.portfolio symbol with
    | none => (false, st)
    | some pos =>
      let proceeds := price * quantity
      let cash2 := st.cash_balance + proceeds
      let q2 := pos.quantity - quantity
      let portfolio2 :=
        if q2 = 0 then eraseHolding st.portfolio symbol
        else setHolding st.portfolio symbol { pos with quantity := q2 }
      (true, { cash_balance := cash2, portfolio := portfolio2 })

end TradingSystem

namespace TradingSystem

/-- One row of the price/volume DataFrame consumed by
`TechnicalAnalyzer.calculate_indicators`. -/
structure Bar where
  Close : Rat
  High : Rat
  Low : Rat
  Volume : Rat
deriving Repr, DecidableEq

/-- The last `n` values of a series (`Series.tail(n)` / a rolling window
ending at the last row). -/
def lastN (n : Nat) (l : List Rat) : List Rat := l.drop (l.length - n)

/-- Arithmetic mean of a series. -/
def mean (l : List Rat) : Rat := l.sum / (l.length : Rat)

/-- Last value of `Series.rolling(window).mean()`. -/
def smaLast (window : Nat) (xs : List Rat) : Rat := mean (lastN window xs)

/-- Last value of `Series.ewm(alpha, adjust=False).mean()`: seeded with the
first observation, then the standard recursive exponential update. -/
def ewmLast (alpha : Rat) : List Rat → Rat
  | [] => 0
  | x :: xs => xs.foldl (fun acc y => alpha * y + (1 - alpha) * acc) x

/-- Last value of `ta.trend.ema_indicator(close, window=span)`, which uses
`ewm(span=span, adjust=False)`, i.e. `alpha = 2 / (span + 1)`. -/
def emaLast (span : Nat) (xs : List Rat) : Rat := ewmLast (2 / ((span : Rat) + 1)) xs

/-- The whole `ewm(alpha, adjust=False).mean()` series. -/
def ewmSeries (alpha : Rat) : List Rat → List Rat
  | [] => []
  | x :: xs => xs.scanl (fun acc y => alpha * y + (1 - alpha) * acc) x

/-- The whole EMA series at a given span. -/
def emaSeries (span : Nat) (xs : List Rat) : List Rat :=
  ewmSeries (2 / ((span : Rat) + 1)) xs

/-- The `ta.trend.macd` series: EMA(12) minus EMA(26), pointwise. -/
def macdSeries (xs : List Rat) : List Rat :=
  List.zipWith (fun a b => a - b) (emaSeries 12 xs) (emaSeries 26 xs)

/-- Last value of `ta.momentum.rsi(close, window=14)` followed by the
source's NaN-normalization loop.  The `ta` implementation smooths the
up/down move series with `ewm(alpha=1/14, adjust=False)` and computes
`100 - 100 / (1 + up / down)` in IEEE arithmetic; the two guards encode
the float outcomes at the singular points: `down = 0, up > 0` gives
`rs = inf` and RSI `100`, while `down = up = 0` gives `rs = NaN`, whose
NaN result the source's normalization loop replaces with `0.0`. -/
def rsiLast (xs : List Rat) : Rat :=
  let diffs := List.zipWith (fun a b => a - b) (xs.drop 1) xs
  let ups := diffs.map (fun d => if d > 0 then d else 0)
  let downs := diffs.map (fun d => if d < 0 then -d else 0)
  let emaup := ewmLast (1/14) ups
  let emadn := ewmLast (1/14) downs
  if emadn = 0 then (if emaup = 0 then 0 else 100)
  else 100 - 100 / (1 + emaup / emadn)

/-- `TechnicalAnalyzer.calculate_indicators(data)`: the empty dict when the
DataFrame is empty or shorter than 50 rows, otherwise the indicator dict in
the source's insertion order.  The three Bollinger-band fields are elided:
they are `mean ± 2·stddev` over a 20-bar window, and the standard deviation
is an irrational square root with no exact rational counterpart — no claim
under verification depends on them.  The closing NaN-normalization loop is
absorbed into `rsiLast` (ℚ has no NaN; for 50 or more bars the remaining
modelled fields are NaN-free). -/
def calculate_indicators (data : List Bar) : List (String × Rat) :=
  if data = [] ∨ data.length < 50 then []
  else
    let closes := data.map Bar.Close
    let highs := data.map Bar.High
    let lows := data.map Bar.Low
    let volumes := data.map Bar.Volume
    let n := data.length
    let macd := emaLast 12 closes - emaLast 26 closes
    let macd_signal := ewmLast (2/10) (macdSeries closes)
    let c1 := closes.getD (n - 1) 0
    let c2 := closes.getD (n - 2) 0
    let c6 := closes.getD (n - 6) 0
    [("sma_20", smaLast 20 closes),
     ("sma_50", smaLast 50 closes),
     ("ema_12", emaLast 12 closes),
     ("ema_26", emaLast 26 closes),
     ("rsi", rsiLast closes),
     ("macd", macd),
     ("macd_signal", macd_signal),
     ("macd_histogram", macd - macd_signal),
     ("support", ((lastN 20 lows).min?).getD 0),
     ("resistance", ((lastN 20 highs).max?).getD 0),
     ("volume_sma", smaLast 20 volumes),
     ("current_volume", ((pyInt (volumes.getD (n - 1) 0) : Int) : Rat)),
     ("current_price", c1),
     ("price_change_1d", (c1 - c2) / c2 * 100),
     ("price_change_5d", (c1 - c6) / c6 * 100)]

end TradingSystem

/-! ## Shared concrete fixtures for witnesses and counterexamples -/

/-- A market-open environment with no real-time prices available (every
price lookup falls back to the stored entry price). -/
def envOpen : Puppy.Env := { marketOpen := true, priceOf := fun _ => none }

/-- A market-closed environment with no real-time prices available. -/
def envClosed : Puppy.Env := { marketOpen := false, priceOf := fun _ => none }

/-- A ledger holding 200 shares of "X" at average cost 50 with cash
500,000 — a state where a sell would succeed were the market open. -/
def stHeld : Puppy.PortfolioState :=
  { initial_capital := 1000000, cash := 500000, position_size_limit := 1/5
    positions := [("X", { quantity := 200, price := 50 })]
    transactions := [], tradeLog := [] }

/-! ## Claims -/

/-- C1 (counterexample): with portfolio total value 1,000,000, cash
1,000,000 and a proposed BUY of 3,000 shares at price 100 (cost 300,000),
the risk filter does NOT return quantity 2,000 = 200,000/100 as the claim
states: the shrunk quantity 2,000 is further capped at the 1,000-share
maximum, so the surviving intent has quantity 1,000. -/
theorem c1_risk_filter_shrink_cex :
    Puppy.Risk.apply_risk_rules
        [("X", { action := "buy", quantity := 3000, price := 100, reason := "signal" })]
        { cash := 1000000, total_value := 1000000 } =
      [("X", { action := "buy", quantity := 1000, price := 100, reason := "signal" })] ∧
    (1000 : Int) ≠ 2000 := by
  exact ⟨by with_unfolding_all decide, by decide⟩

/-- C1 (amended): for a single proposed BUY intent whose cost is within
cash but above the 20% position-size ceiling, and whose ceiling quantity
`int(0.2 · total_value / price)` is at least the 100-share minimum, the
risk filter keeps the intent (not rejected) with quantity shrunk to the
ceiling quantity capped at the 1,000-share maximum — in the claim's
scenario, `min 2000 1000 = 1000`. -/
theorem c1_risk_filter_shrink (sym : String) (q : Int) (price : Rat) (reason : String)
    (ps : Puppy.Risk.PfView)
    (h1 : ¬((q : Rat) * price > ps.cash))
    (h2 : (q : Rat) * price > ps.total_value * (2/10))
    (h3 : ¬(pyInt (ps.total_value * (2/10) / price) < 100)) :
    Puppy.Risk.apply_risk_rules
        [(sym, { action := "buy", quantity := q, price := price, reason := reason })] ps =
      [(sym, { action := "buy",
               quantity := min (pyInt (ps.total_value * (2/10) / price)) 1000,
               price := price, reason := reason })] := by
  unfold Puppy.Risk.apply_risk_rules Puppy.Risk.apply_risk_rules_go
  rw [if_pos rfl, if_neg h1, if_pos h2, if_neg h3]
  rfl

/-- C1 (witness): the amended theorem applied at the claim's scenario
numbers yields the 1,000-share intent. -/
theorem c1_risk_filter_shrink_w :
    Puppy.Risk.apply_risk_rules
        [("X", { action := "buy", quantity := 3000, price := 100, reason := "signal" })]
        { cash := 1000000, total_value := 1000000 } =
      [("X", { action := "buy", quantity := 1000, price := 100, reason := "signal" })] := by
  have h := c1_risk_filter_shrink "X" 3000 100 "signal"
    { cash := 1000000, total_value := 1000000 } (by with_unfolding_all decide)
    (by with_unfolding_all decide) (by with_unfolding_all decide)
  exact h.trans (by with_unfolding_all decide)

/-- C2 (counterexample): `buy` with requested quantity 1 at price 100 from
a fresh 1,000,000-cash ledger succeeds and leaves a position of quantity
1, far below the 100-share minimum lot — the minimum is only enforced on
the shrink paths, so the claim "every successful buy results in a
position at or above 100 shares" is false. -/
theorem c2_min_lot_cex :
    (Puppy.buy envOpen (Puppy.mkPortfolio 1000000 (1/5)) "X" 1 100 "small").1 = true ∧
    Puppy.lookupPos
        (Puppy.buy envOpen (Puppy.mkPortfolio 1000000 (1/5)) "X" 1 100 "small").2.positions
        "X" = some { quantity := 1, price := 100 } ∧
    ¬(100 ≤ (1 : Int)) := by
  exact ⟨by with_unfolding_all decide, by with_unfolding_all decide, by decide⟩

/-- C2 (amended): whenever `buy` succeeds, the executed quantity `e`
added to the (possibly absent) prior position is either exactly the
requested quantity, or — when one of the two shrink paths fired — at
least the 100-share minimum lot; a shrunk order below 100 shares is
rejected. -/
theorem c2_min_lot (env : Puppy.Env) (st : Puppy.PortfolioState) (symbol : String)
    (quantity : Int) (price : Rat) (reason : String)
    (hs : (Puppy.buy env st symbol quantity price reason).1 = true) :
    ∃ e avg, (e = quantity ∨ 100 ≤ e) ∧
      Puppy.lookupPos (Puppy.buy env st symbol quantity price reason).2.positions symbol =
        some { quantity := (match Puppy.lookupPos st.positions symbol with
                            | some pos => pos.quantity
                            | none => 0) + e,
               price := avg } := by
  unfold Puppy.buy at hs ⊢
  cases h1 : Puppy.buy_cash_check st quantity price with
  | none => rw [h1] at hs; simp at hs
  | some q1 =>
    rw [h1] at hs
    dsimp only at hs ⊢
    by_cases hpv : Puppy.get_total_value env st = 0
    · rw [if_pos hpv] at hs; simp at hs
    · rw [if_neg hpv] at hs ⊢
      cases h2 : Puppy.buy_ceiling_check (Puppy.get_total_value env st)
          st.position_size_limit q1 price with
      | none => rw [h2] at hs; simp at hs
      | some q2 =>
        rw [h2] at hs
        dsimp only at hs ⊢
        have he : q2 = quantity ∨ 100 ≤ q2 := by
          rcases Puppy.buy_ceiling_check_some h2 with e1 | e1
          · rcases Puppy.buy_cash_check_some h1 with e2 | e2
            · exact Or.inl (e1.trans e2)
            · exact Or.inr (e1 ▸ e2)
          · exact Or.inr e1
        unfold Puppy.buy_exec at hs ⊢
        cases hl : Puppy.lookupPos st.positions symbol with
        | none =>
          refine ⟨q2, price, he, ?_⟩
          simp only [Puppy.record_transaction_positions, Puppy.lookupPos_setPos_self]
          simp
        | some pos =>
          rw [hl] at hs
          dsimp only at hs ⊢
          by_cases htq : pos.quantity + q2 = 0
          · rw [if_pos htq] at hs; simp at hs
          · rw [if_neg htq] at hs ⊢
            refine ⟨q2, ((pos.quantity : Rat) * pos.price + (q2 : Rat) * price) /
              ((pos.quantity + q2 : Int) : Rat), he, ?_⟩
            simp only [Puppy.record_transaction_positions, Puppy.lookupPos_setPos_self]

/-- C2 (witness): the amended theorem applied at a concrete successful
buy (quantity 1 at price 100 from a fresh ledger). -/
theorem c2_min_lot_w :
    ∃ e avg, (e = (1 : Int) ∨ 100 ≤ e) ∧
      Puppy.lookupPos
          (Puppy.buy envOpen (Puppy.mkPortfolio 1000000 (1/5)) "X" 1 100 "small").2.positions
          "X" =
        some { quantity := (match Puppy.lookupPos (Puppy.mkPortfolio 1000000 (1/5)).positions "X" with
                            | some pos => pos.quantity
                            | none => 0) + e,
               price := avg } :=
  c2_min_lot envOpen (Puppy.mkPortfolio 1000000 (1/5)) "X" 1 100 "small"
    (by with_unfolding_all decide)

/-- C9: calling the Indicator Engine with a price/volume window shorter
than the 50-bar minimum lookback always returns the explicit
"insufficient data" result — the empty indicator set — never a computed
feature vector. -/
theorem c9_insufficient_data (data : List TradingSystem.Bar) (h : data.length < 50) :
    TradingSystem.calculate_indicators data = [] := by
  unfold TradingSystem.calculate_indicators
  rw [if_pos (Or.inr h)]

/-- C9 (witness): a 10-bar window yields the empty indicator set. -/
theorem c9_insufficient_data_w :
    TradingSystem.calculate_indicators
        (List.replicate 10 { Close := 100, High := 101, Low := 99, Volume := 1000 }) = [] :=
  c9_insufficient_data _ (by decide)

/-- C10: `Portfolio.sell` consults the market-hours check first and, when
the market is reported closed, returns `False` with the ledger unchanged
(cash, positions and both transaction logs intact) — even if the symbol
is held with sufficient quantity; `Portfolio.buy` never consults the
market-open flag, so its outcome is identical under any two environments
that agree on the price feed. -/
theorem c10_market_closed_sell_guard (env : Puppy.Env) (st : Puppy.PortfolioState)
    (symbol : String) (quantity : Int) (price : Rat) (reason : String)
    (hclosed : env.marketOpen = false) :
    Puppy.sell env st symbol quantity price reason = (false, st) ∧
    ∀ env2 : Puppy.Env, env2.priceOf = env.priceOf →
      Puppy.buy env2 st symbol quantity price reason =
        Puppy.buy env st symbol quantity price reason := by
  constructor
  · unfold Puppy.sell
    rw [hclosed, if_pos rfl]
  · intro env2 h2
    have hgtv : ∀ s, Puppy.get_total_value env2 s = Puppy.get_total_value env s := by
      intro s
      unfold Puppy.get_total_value
      rw [h2]
    unfold Puppy.buy Puppy.buy_exec Puppy.record_transaction
    simp only [hgtv]

/-- C10 (witness): with the market closed, selling 100 of the 200 held
shares of "X" is refused and the ledger is returned unchanged. -/
theorem c10_market_closed_sell_guard_w :
    Puppy.sell envClosed stHeld "X" 100 90 "exit" = (false, stHeld) :=
  (c10_market_closed_sell_guard envClosed stHeld "X" 100 90 "exit" rfl).1

/-- A ledger state holding 100 shares of "X" at average entry price 0 with
zero cash.  It is reachable through the public API: from a fresh ledger,
`buy("X", 100, 0)` has cost 0, passes both checks, and records the
position with price 0. -/
def stZeroEntry : Puppy.PortfolioState :=
  { initial_capital := 1000000, cash := 0, position_size_limit := 1/5
    positions := [("X", { quantity := 100, price := 0 })]
    transactions := [], tradeLog := [] }

/-- C5 (counterexample): selling 100 shares of "X" at 90 from a state
whose position has entry price 0 FAILS (the profit-loss-percentage
division raises after the cash credit) yet leaves the cash changed from 0
to 9,000 — so "whenever sell returns failure, no field of the ledger has
changed" is false. -/
theorem c5_ledger_atomicity_cex :
    (Puppy.sell envOpen stZeroEntry "X" 100 90 "exit").1 = false ∧
    (Puppy.sell envOpen stZeroEntry "X" 100 90 "exit").2.cash = 9000 ∧
    stZeroEntry.cash = 0 := by
  have hsell : Puppy.sell envOpen stZeroEntry "X" 100 90 "exit" =
      (false, { stZeroEntry with cash := 9000 }) := by
    unfold Puppy.sell
    rw [show envOpen.marketOpen = true from rfl, if_neg (by simp : ¬(true : Bool) = false)]
    rw [show Puppy.lookupPos stZeroEntry.positions "X" =
      some { quantity := 100, price := 0 } from rfl]
    dsimp only
    rw [if_pos rfl]
    have hc : stZeroEntry.cash + ((100 : Int) : Rat) * 90 = 9000 := by
      rw [show stZeroEntry.cash = 0 from rfl]
      norm_num
    rw [if_neg (by norm_num : ¬((100 : Int) > 100))]
    rw [hc]
  rw [hsell]
  exact ⟨rfl, rfl, rfl⟩

/-- C5 (amended): on any ledger whose positions all have positive
quantity and positive average entry price, and for any buy of positive
quantity, each buy or sell either completes in full or — whenever it
returns failure — leaves every field of the ledger exactly as it was.
(The positivity conditions exclude the two mid-mutation
`ZeroDivisionError` paths: a zero entry price in sell's percentage
computation and a zero merged quantity in buy's average-price
computation.) -/
theorem c5_ledger_atomicity (env : Puppy.Env) (st : Puppy.PortfolioState)
    (symbol : String) (quantity : Int) (price : Rat) (reason : String)
    (hgood : Puppy.GoodPositions st) (hq : 0 < quantity) :
    ((Puppy.buy env st symbol quantity price reason).1 = false →
      (Puppy.buy env st symbol quantity price reason).2 = st) ∧
    ((Puppy.sell env st symbol quantity price reason).1 = false →
      (Puppy.sell env st symbol quantity price reason).2 = st) :=
  ⟨Puppy.buy_fail_unchanged env st symbol quantity price reason hgood hq,
   Puppy.sell_fail_unchanged env st symbol quantity price reason hgood⟩

/-- C5 (witness): the amended theorem at a fresh ledger (no positions)
and a concrete market-closed sell plus an unaffordable buy. -/
theorem c5_ledger_atomicity_w :
    ((Puppy.buy envClosed (Puppy.mkPortfolio 1000 (1/5)) "X" 10 5 "r").1 = false →
      (Puppy.buy envClosed (Puppy.mkPortfolio 1000 (1/5)) "X" 10 5 "r").2 =
        Puppy.mkPortfolio 1000 (1/5)) ∧
    ((Puppy.sell envClosed (Puppy.mkPortfolio 1000 (1/5)) "X" 10 5 "r").1 = false →
      (Puppy.sell envClosed (Puppy.mkPortfolio 1000 (1/5)) "X" 10 5 "r").2 =
        Puppy.mkPortfolio 1000 (1/5)) :=
  c5_ledger_atomicity envClosed (Puppy.mkPortfolio 1000 (1/5)) "X" 10 5 "r"
    (fun p hp => absurd hp (List.not_mem_nil p)) (by decide)

/-- Reduction lemma for `Portfolio.buy`: when both shrink checks return
a quantity and the portfolio value is nonzero, `buy` is its execution
tail at the doubly-shrunk quantity. -/
theorem Puppy.buy_reduces (env : Puppy.Env) (st : Puppy.PortfolioState)
    (symbol : String) (quantity : Int) (price : Rat) (reason : String) (q1 q2 : Int)
    (h1 : Puppy.buy_cash_check st quantity price = some q1)
    (hpv : Puppy.get_total_value env st ≠ 0)
    (h2 : Puppy.buy_ceiling_check (Puppy.get_total_value env st)
      st.position_size_limit q1 price = some q2) :
    Puppy.buy env st symbol quantity price reason =
      Puppy.buy_exec env st symbol q2 price reason := by
  unfold Puppy.buy
  rw [h1]
  dsimp only
  rw [if_neg hpv, h2]

/-- C6: from a fresh ledger with cash 1,000,000 (any position-size
ceiling of at least 1% and any market-open environment),
`buy("X", 100, 100)` succeeds leaving cash 990,000 and a 100-share
position at average cost 100; the subsequent `sell("X", 100, 90)`
succeeds, credits cash to 999,000, removes the position entirely, and
logs realized profit/loss (90 − 100) × 100 = −1,000. -/
theorem c6_buy_then_sell_at_loss (env : Puppy.Env) (limit : Rat)
    (hopen : env.marketOpen = true) (hlim : 1/100 ≤ limit) :
    (Puppy.buy env (Puppy.mkPortfolio 1000000 limit) "X" 100 100 "entry").1 = true ∧
    (Puppy.buy env (Puppy.mkPortfolio 1000000 limit) "X" 100 100 "entry").2.cash = 990000 ∧
    Puppy.lookupPos
        (Puppy.buy env (Puppy.mkPortfolio 1000000 limit) "X" 100 100 "entry").2.positions
        "X" = some { quantity := 100, price := 100 } ∧
    (Puppy.sell env (Puppy.buy env (Puppy.mkPortfolio 1000000 limit) "X" 100 100 "entry").2
        "X" 100 90 "exit").1 = true ∧
    (Puppy.sell env (Puppy.buy env (Puppy.mkPortfolio 1000000 limit) "X" 100 100 "entry").2
        "X" 100 90 "exit").2.cash = 999000 ∧
    Puppy.lookupPos
        (Puppy.sell env (Puppy.buy env (Puppy.mkPortfolio 1000000 limit) "X" 100 100 "entry").2
          "X" 100 90 "exit").2.positions "X" = none ∧
    ((Puppy.sell env (Puppy.buy env (Puppy.mkPortfolio 1000000 limit) "X" 100 100 "entry").2
        "X" 100 90 "exit").2.tradeLog.getLast?).map Puppy.LogRow.profit_loss =
      some (-1000) := by
  have h1 : Puppy.buy_cash_check (Puppy.mkPortfolio 1000000 limit) 100 100 = some 100 := by
    unfold Puppy.buy_cash_check Puppy.mkPortfolio
    rw [if_neg (by norm_num)]
  have hpv : Puppy.get_total_value env (Puppy.mkPortfolio 1000000 limit) = 1000000 := by
    unfold Puppy.get_total_value Puppy.mkPortfolio
    rw [if_pos rfl]
  have h2 : Puppy.buy_ceiling_check 1000000 limit 100 100 = some 100 := by
    unfold Puppy.buy_ceiling_check
    have hc : ¬(((100 : Int) : Rat) * 100 / 1000000 > limit) := by
      have he : ((100 : Int) : Rat) * 100 / 1000000 = 1/100 := by norm_num
      rw [he]
      exact not_lt.mpr hlim
    rw [if_neg hc]
  have hred : Puppy.buy env (Puppy.mkPortfolio 1000000 limit) "X" 100 100 "entry" =
      Puppy.buy_exec env (Puppy.mkPortfolio 1000000 limit) "X" 100 100 "entry" := by
    refine Puppy.buy_reduces env (Puppy.mkPortfolio 1000000 limit) "X" 100 100 "entry"
      100 100 h1 ?_ ?_
    · rw [hpv]
      norm_num
    · rw [hpv, show (Puppy.mkPortfolio 1000000 limit).position_size_limit = limit from rfl]
      exact h2
  rw [hred]
  have hpos1 : (Puppy.buy_exec env (Puppy.mkPortfolio 1000000 limit)
      "X" 100 100 "entry").2.positions = [("X", { quantity := 100, price := 100 })] := rfl
  have hcash1 : (Puppy.buy_exec env (Puppy.mkPortfolio 1000000 limit)
      "X" 100 100 "entry").2.cash = 990000 := by
    have hc : (Puppy.buy_exec env (Puppy.mkPortfolio 1000000 limit)
        "X" 100 100 "entry").2.cash = 1000000 - ((100 : Int) : Rat) * 100 := rfl
    rw [hc]
    norm_num
  have hlook1 : Puppy.lookupPos (Puppy.buy_exec env (Puppy.mkPortfolio 1000000 limit)
      "X" 100 100 "entry").2.positions "X" = some { quantity := 100, price := 100 } := by
    rw [hpos1]
    unfold Puppy.lookupPos
    rw [if_pos rfl]
  have hnd1 : ((Puppy.buy_exec env (Puppy.mkPortfolio 1000000 limit)
      "X" 100 100 "entry").2.positions.map Prod.fst).Nodup := by
    rw [hpos1]
    simp
  have hsell := Puppy.sell_liquidates env
    (Puppy.buy_exec env (Puppy.mkPortfolio 1000000 limit) "X" 100 100 "entry").2
    "X" 100 90 "exit" { quantity := 100, price := 100 } hopen hnd1 hlook1
    (le_refl _) (by norm_num)
  refine ⟨rfl, hcash1, hlook1, hsell.1, ?_, hsell.2.2.1, ?_⟩
  · rw [hsell.2.1, hcash1]
    norm_num
  · rw [hsell.2.2.2]
    norm_num

/-- C6 (witness): the theorem at the canonical 20% ceiling and the
market-open environment with no real-time feed. -/
theorem c6_buy_then_sell_at_loss_w :
    (Puppy.buy envOpen (Puppy.mkPortfolio 1000000 (1/5)) "X" 100 100 "entry").1 = true ∧
    (Puppy.buy envOpen (Puppy.mkPortfolio 1000000 (1/5)) "X" 100 100 "entry").2.cash =
      990000 :=
  let h := c6_buy_then_sell_at_loss envOpen (1/5) rfl (by norm_num)
  ⟨h.1, h.2.1⟩

/-- A paper-trading engine holding 100 shares of "X" at average price 50. -/
def stPTE : TradingSystem.PTEState :=
  { cash_balance := 1000, portfolio := [("X", { quantity := 100, avg_price := 50 })] }

/-- C8 (counterexample): `PaperTradingEngine.execute_sell` with a request
of 200 shares against a 100-share holding does NOT "sell exactly the held
quantity": it rejects the order outright (`can_sell` fails), returns
`False`, and leaves the holding and cash untouched. -/
theorem c8_no_oversell_cex :
    TradingSystem.execute_sell stPTE "X" 90 200 = (false, stPTE) ∧
    TradingSystem.lookupHolding stPTE.portfolio "X" =
      some { quantity := 100, avg_price := 50 } ∧
    ((100 : Int) < 200) := by
  refine ⟨?_, rfl, by decide⟩
  unfold TradingSystem.execute_sell TradingSystem.can_sell
  rw [show TradingSystem.lookupHolding stPTE.portfolio "X" =
    some { quantity := 100, avg_price := 50 } from rfl]
  dsimp only
  rw [decide_eq_false (by decide : ¬((200 : Int) ≤ 100)), if_pos rfl]

/-- C8 (amended): (1) positive-quantity invariant — starting from any
`Portfolio` ledger whose positions all have positive quantity, any
sequence of buys with positive requested quantity and arbitrary sells
leaves every position with quantity > 0 (a position reaching 0 is
removed); (2) `Portfolio.sell` with a request above the held quantity
(market open, unique symbols, nonzero entry price) clamps: it sells
exactly the held quantity and removes the position, never going below 0;
(3) `PaperTradingEngine.execute_sell` with a request above the held
quantity rejects the order outright with no mutation — it also never
drives a quantity below 0, but by refusing rather than clamping. -/
theorem c8_no_oversell :
    (∀ (env : Puppy.Env) (st : Puppy.PortfolioState) (ops : List Puppy.Op),
      Puppy.PosPositive st → (∀ op ∈ ops, Puppy.buyPositive op) →
      Puppy.PosPositive (Puppy.applyOps env st ops)) ∧
    (∀ (env : Puppy.Env) (st : Puppy.PortfolioState) (symbol : String)
      (quantity : Int) (price : Rat) (reason : String) (pos : Puppy.Pos),
      env.marketOpen = true → (st.positions.map Prod.fst).Nodup →
      Puppy.lookupPos st.positions symbol = some pos →
      pos.quantity < quantity → pos.price ≠ 0 →
      (Puppy.sell env st symbol quantity price reason).1 = true ∧
      (Puppy.sell env st symbol quantity price reason).2.cash =
        st.cash + pos.quantity * price ∧
      Puppy.lookupPos (Puppy.sell env st symbol quantity price reason).2.positions
        symbol = none) ∧
    (∀ (st : TradingSystem.PTEState) (symbol : String) (price : Rat)
      (quantity : Int) (pos : TradingSystem.PTEPos),
      TradingSystem.lookupHolding st.portfolio symbol = some pos →
      pos.quantity < quantity →
      TradingSystem.execute_sell st symbol price quantity = (false, st)) := by
  refine ⟨Puppy.applyOps_posPositive, ?_, ?_⟩
  · intro env st symbol quantity price reason pos hopen hnd hl hq hp
    have h := Puppy.sell_liquidates env st symbol quantity price reason pos
      hopen hnd hl (le_of_lt hq) hp
    exact ⟨h.1, h.2.1, h.2.2.1⟩
  · intro st symbol price quantity pos hl hq
    unfold TradingSystem.execute_sell TradingSystem.can_sell
    rw [hl]
    dsimp only
    rw [decide_eq_false (not_le.mpr hq), if_pos rfl]

/-- C8 (witness): the amended theorem applied at concrete inputs — a
two-operation history preserving positivity, an oversized `Portfolio`
sell that clamps to the 200 held shares, and an oversized
`PaperTradingEngine` sell that is rejected unchanged. -/
theorem c8_no_oversell_w :
    Puppy.PosPositive (Puppy.applyOps envOpen stHeld
      [Puppy.Op.buyOp "Y" 100 10 "r", Puppy.Op.sellOp "X" 300 60 "r"]) ∧
    ((Puppy.sell envOpen stHeld "X" 300 60 "s").1 = true ∧
      (Puppy.sell envOpen stHeld "X" 300 60 "s").2.cash =
        stHeld.cash + (200 : Int) * 60 ∧
      Puppy.lookupPos (Puppy.sell envOpen stHeld "X" 300 60 "s").2.positions "X" =
        none) ∧
    TradingSystem.execute_sell stPTE "X" 90 200 = (false, stPTE) := by
  refine ⟨?_, ?_, ?_⟩
  · refine c8_no_oversell.1 envOpen stHeld _ ?_ ?_
    · intro p hp
      rw [show stHeld.positions = [("X", { quantity := 200, price := 50 })] from rfl,
        List.mem_singleton] at hp
      rw [hp]
      decide
    · intro op hop
      rcases List.mem_cons.mp hop with h1 | h1
      · rw [h1]
        exact (by decide : (0 : Int) < 100)
      · rcases List.mem_cons.mp h1 with h2 | h2
        · rw [h2]; trivial
        · exact absurd h2 (List.not_mem_nil op)
  · exact c8_no_oversell.2.1 envOpen stHeld "X" 300 60 "s"
      { quantity := 200, price := 50 } rfl (by decide) rfl (by decide) (by norm_num)
  · exact c8_no_oversell.2.2 stPTE "X" 90 200
      { quantity := 100, avg_price := 50 } rfl (by decide)

/-- The per-stock importance bonus as the (amended) specification words
it: +0.3 for volume above 1.5× its rolling average, +0.2 for a
single-period return magnitude beyond 5%, +0.2 for RSI outside [30, 70],
+0.3 for a moving-average crossover signal (20-day and 50-day averages
unequal, either direction). -/
def Puppy.Memory.stock_bonus_spec (s : Puppy.Memory.StockData) : Rat :=
  (match s.Volume_MA with
   | some vma => if s.Volume.getD 0 > vma * (3/2) then (3:Rat)/10 else 0
   | none => 0) +
  (if |s.Daily_Return.getD 0| > 5/100 then (2:Rat)/10 else 0) +
  (if s.RSI.getD 50 < 30 ∨ s.RSI.getD 50 > 70 then (2:Rat)/10 else 0) +
  (match s.MA_20d, s.MA_50d with
   | some a, some b => if a ≠ b then (3:Rat)/10 else 0
   | _, _ => 0)

/-- The memory-entry importance as the (amended) specification words it:
the per-stock bonuses summed across the stock list from a base of 0,
clamped above at 1. -/
def Puppy.Memory.importance_spec (d : Puppy.Memory.MemoryData) : Rat :=
  min (match d with
       | some stocks => (stocks.map Puppy.Memory.stock_bonus_spec).sum
       | none => 0) 1

theorem Puppy.Memory.crossover_if_eq (a b : Rat) :
    (if a > b then (3:Rat)/10 else if a < b then (3:Rat)/10 else 0) =
    (if a ≠ b then (3:Rat)/10 else 0) := by
  by_cases h1 : a > b
  · rw [if_pos h1, if_pos (ne_of_gt h1)]
  · rw [if_neg h1]
    by_cases h2 : a < b
    · rw [if_pos h2, if_pos (ne_of_lt h2)]
    · rw [if_neg h2, if_neg (fun hne => hne (le_antisymm (not_lt.mp h1) (not_lt.mp h2)))]

theorem Puppy.Memory.importance_step_eq (acc : Rat) (s : Puppy.Memory.StockData) :
    Puppy.Memory.importance_step acc s = acc + Puppy.Memory.stock_bonus_spec s := by
  unfold Puppy.Memory.importance_step Puppy.Memory.stock_bonus_spec
  have hma : ∀ (a b X : Rat),
      (if a > b then X + 3/10 else if a < b then X + 3/10 else X) =
      X + (if a ≠ b then (3:Rat)/10 else 0) := by
    intro a b X
    rcases eq_or_ne a b with hab | hab
    · subst hab
      rw [if_neg (lt_irrefl a), if_neg (lt_irrefl a), if_neg (fun h => h rfl), add_zero]
    · rw [if_pos hab]
      rcases lt_or_gt_of_ne hab with h | h
      · rw [if_neg (lt_asymm h), if_pos h]
      · rw [if_pos h]
  cases s.Volume_MA with
  | none =>
    cases s.MA_20d with
    | none => dsimp only; split_ifs <;> ring
    | some a =>
      cases s.MA_50d with
      | none => dsimp only; split_ifs <;> ring
      | some b => dsimp only; rw [hma]; split_ifs <;> ring
  | some vma =>
    cases s.MA_20d with
    | none => dsimp only; split_ifs <;> ring
    | some a =>
      cases s.MA_50d with
      | none => dsimp only; split_ifs <;> ring
      | some b => dsimp only; rw [hma]; split_ifs <;> ring

theorem Puppy.Memory.importance_foldl_eq (l : List Puppy.Memory.StockData) (acc : Rat) :
    l.foldl Puppy.Memory.importance_step acc =
      acc + (l.map Puppy.Memory.stock_bonus_spec).sum := by
  induction l generalizing acc with
  | nil => simp
  | cons s rest ih =>
    simp only [List.foldl_cons, List.map_cons, List.sum_cons]
    rw [ih, Puppy.Memory.importance_step_eq]
    ring

theorem Puppy.Memory.stock_bonus_spec_nonneg (s : Puppy.Memory.StockData) :
    0 ≤ Puppy.Memory.stock_bonus_spec s := by
  unfold Puppy.Memory.stock_bonus_spec
  have h1 : (0:Rat) ≤ (match s.Volume_MA with
      | some vma => if s.Volume.getD 0 > vma * (3/2) then (3:Rat)/10 else 0
      | none => 0) := by
    cases s.Volume_MA with
    | none => norm_num
    | some vma => dsimp only; split <;> norm_num
  have h2 : (0:Rat) ≤ (if |s.Daily_Return.getD 0| > 5/100 then (2:Rat)/10 else 0) := by
    split <;> norm_num
  have h3 : (0:Rat) ≤ (if s.RSI.getD 50 < 30 ∨ s.RSI.getD 50 > 70
      then (2:Rat)/10 else 0) := by split <;> norm_num
  have h4 : (0:Rat) ≤ (match s.MA_20d, s.MA_50d with
      | some a, some b => if a ≠ b then (3:Rat)/10 else 0
      | _, _ => 0) := by
    cases s.MA_20d with
    | none => norm_num
    | some a =>
      cases s.MA_50d with
      | none => norm_num
      | some b => dsimp only; split <;> norm_num
  linarith

/-- C3 (counterexample): a recorded market entry whose payload carries an
empty stock list gets importance score 0, not the claimed base of 0.5 —
`LayeredMemory._calculate_importance` starts from 0.0, so the claim that
every recorded entry scores at least the 0.5 base is false. -/
theorem c3_importance_scoring_cex :
    Puppy.Memory.calculate_importance (some []) = 0 ∧
    ((0 : Rat) < 1/2) ∧
    (Puppy.Memory.add_memory (Puppy.Memory.mkMemory 10 10 (6/10)) (some [])
        "market").short_term.map Puppy.Memory.Entry.importance_score = [0] := by
  refine ⟨?_, by norm_num, ?_⟩ <;> with_unfolding_all decide

/-- C3 (amended): in `LayeredMemory` (memory.py) the importance score
starts from a base of 0.0 — not 0.5 — and adds, per stock record, +0.3
for volume above 1.5× its rolling average, +0.2 for a single-period
return magnitude beyond 5%, +0.2 for RSI outside [30, 70] and +0.3 for a
moving-average crossover (either direction), clamped to [0, 1]; the
fixed TRADE constant lives only in `trading_system.py`, whose
`calculate_importance_score` scores every TRADE entry exactly 0.8. -/
theorem c3_importance_scoring :
    (∀ d : Puppy.Memory.MemoryData,
      Puppy.Memory.calculate_importance d = Puppy.Memory.importance_spec d) ∧
    (∀ c : TradingSystem.MContent,
      TradingSystem.calculate_importance_score "TRADE" c = 8/10) ∧
    (∀ d : Puppy.Memory.MemoryData,
      0 ≤ Puppy.Memory.calculate_importance d ∧
      Puppy.Memory.calculate_importance d ≤ 1) := by
  have hmain : ∀ d : Puppy.Memory.MemoryData,
      Puppy.Memory.calculate_importance d = Puppy.Memory.importance_spec d := by
    intro d
    unfold Puppy.Memory.calculate_importance Puppy.Memory.importance_spec
    cases d with
    | none => rfl
    | some stocks =>
      dsimp only
      rw [Puppy.Memory.importance_foldl_eq, zero_add]
  refine ⟨hmain, ?_, ?_⟩
  · intro c
    unfold TradingSystem.calculate_importance_score
    dsimp only
    rw [if_neg (by decide : ¬("TRADE" = "PRICE")), if_neg (by decide : ¬("TRADE" = "NEWS")),
      if_neg (by decide : ¬("TRADE" = "TECHNICAL")), if_pos rfl]
    rw [min_eq_left (by norm_num)]
  · intro d
    rw [hmain d]
    unfold Puppy.Memory.importance_spec
    constructor
    · apply le_min _ (by norm_num)
      cases d with
      | none => norm_num
      | some stocks =>
        exact List.sum_nonneg (by
          intro x hx
          rcases List.mem_map.mp hx with ⟨s, _, hs⟩
          rw [← hs]
          exact Puppy.Memory.stock_bonus_spec_nonneg s)
    · exact min_le_right _ _

theorem Puppy.Memory.sortTrim_sorted (n : Nat) (l : List Puppy.Memory.Entry) :
    List.Sorted Puppy.Memory.entryGe (Puppy.Memory.sortTrim n l) := by
  unfold Puppy.Memory.sortTrim
  dsimp only
  split
  · exact List.Pairwise.sublist (List.take_sublist n _)
      (List.sorted_insertionSort Puppy.Memory.entryGe l)
  · exact List.sorted_insertionSort Puppy.Memory.entryGe l

theorem Puppy.Memory.sortTrim_length (n : Nat) (l : List Puppy.Memory.Entry) :
    (Puppy.Memory.sortTrim n l).length = min l.length n := by
  unfold Puppy.Memory.sortTrim
  dsimp only
  have hlen : (List.insertionSort Puppy.Memory.entryGe l).length = l.length :=
    (List.perm_insertionSort Puppy.Memory.entryGe l).length_eq
  split
  · rename_i hgt
    rw [List.length_take, hlen]
    omega
  · rename_i hle
    rw [hlen]
    omega

theorem Puppy.Memory.sortTrim_dominance (n : Nat) (l : List Puppy.Memory.Entry) :
    ∀ e ∈ l, e ∉ Puppy.Memory.sortTrim n l →
      ∀ k ∈ Puppy.Memory.sortTrim n l, Puppy.Memory.entryGe k e := by
  intro e hel hen k hk
  unfold Puppy.Memory.sortTrim at hen hk
  dsimp only at hen hk
  have heS : e ∈ List.insertionSort Puppy.Memory.entryGe l :=
    ((List.perm_insertionSort Puppy.Memory.entryGe l).mem_iff).mpr hel
  by_cases hlen : (List.insertionSort Puppy.Memory.entryGe l).length > n
  · rw [if_pos hlen] at hen hk
    have hsorted : List.Pairwise Puppy.Memory.entryGe
        ((List.insertionSort Puppy.Memory.entryGe l).take n ++
          (List.insertionSort Puppy.Memory.entryGe l).drop n) := by
      rw [List.take_append_drop]
      exact List.sorted_insertionSort Puppy.Memory.entryGe l
    have hdrop : e ∈ (List.insertionSort Puppy.Memory.entryGe l).drop n := by
      have hsplit : e ∈ (List.insertionSort Puppy.Memory.entryGe l).take n ++
          (List.insertionSort Puppy.Memory.entryGe l).drop n := by
        rw [List.take_append_drop]
        exact heS
      rcases List.mem_append.mp hsplit with h | h
      · exact absurd h hen
      · exact h
    exact (List.pairwise_append.mp hsorted).2.2 k hk e hdrop
  · rw [if_neg hlen] at hen
    exact absurd heS hen

theorem Puppy.Memory.add_memory_short_term_eq (store : Puppy.Memory.MemoryState)
    (data : Puppy.Memory.MemoryData) (mtype : String) :
    (Puppy.Memory.add_memory store data mtype).short_term =
      Puppy.Memory.sortTrim store.max_short_term (store.short_term ++
        [{ timestamp := store.clock, mem_type := mtype, data := data,
           importance_score := Puppy.Memory.calculate_importance data }]) := rfl

theorem Puppy.Memory.add_memory_short_sorted (store : Puppy.Memory.MemoryState)
    (data : Puppy.Memory.MemoryData) (mtype : String) :
    List.Sorted Puppy.Memory.entryGe
      (Puppy.Memory.add_memory store data mtype).short_term := by
  rw [Puppy.Memory.add_memory_short_term_eq]
  exact Puppy.Memory.sortTrim_sorted _ _

theorem Puppy.Memory.add_memory_long_sorted (store : Puppy.Memory.MemoryState)
    (data : Puppy.Memory.MemoryData) (mtype : String) :
    List.Sorted Puppy.Memory.entryGe
      (Puppy.Memory.add_memory store data mtype).long_term := by
  unfold Puppy.Memory.add_memory Puppy.Memory.maintain_memory_size
  exact Puppy.Memory.sortTrim_sorted _ _

/-- Market data for a single stock that earns every importance bonus
(volume spike, large daily return, extreme RSI, moving-average
crossover): its importance score is 1.0. -/
def dataHigh : Puppy.Memory.MemoryData :=
  some [{ Volume := some 200, Volume_MA := some 100, Daily_Return := some (1/10),
          RSI := some 80, MA_20d := some 2, MA_50d := some 1 }]

/-- C4 (counterexample): with short-term capacity 1, record a
maximum-importance entry (timestamp 0) and then a zero-importance entry
(timestamp 1).  An oldest-first ring would evict timestamp 0 and keep
timestamp 1; the code sorts by (importance, timestamp) descending and
keeps timestamp 0, evicting the NEWER entry — so eviction is not
oldest-first. -/
theorem c4_short_term_eviction_cex :
    ((Puppy.Memory.add_memory (Puppy.Memory.add_memory
        (Puppy.Memory.mkMemory 1 10 (6/10)) dataHigh "market") (some [])
        "market").short_term.map Puppy.Memory.Entry.timestamp) = [0] ∧
    ([0] : List Nat) ≠ [1] := by
  exact ⟨by with_unfolding_all decide, by decide⟩

/-- C4 (amended): after every `add_memory` call the short-term tier is
kept sorted by (importance, timestamp) descending, truncated to its
capacity, and the entries evicted are exactly the lowest-importance ones
(oldest breaking ties): every entry of the tier-plus-new-entry pool that
is not retained is dominated (under the descending order) by every
retained entry. -/
theorem c4_short_term_eviction (store : Puppy.Memory.MemoryState)
    (data : Puppy.Memory.MemoryData) (mtype : String) :
    List.Sorted Puppy.Memory.entryGe
      (Puppy.Memory.add_memory store data mtype).short_term ∧
    (Puppy.Memory.add_memory store data mtype).short_term.length =
      min (store.short_term.length + 1) store.max_short_term ∧
    (∀ e, e ∈ store.short_term ++
        [{ timestamp := store.clock, mem_type := mtype, data := data,
           importance_score := Puppy.Memory.calculate_importance data }] →
      e ∉ (Puppy.Memory.add_memory store data mtype).short_term →
      ∀ k ∈ (Puppy.Memory.add_memory store data mtype).short_term,
        Puppy.Memory.entryGe k e) := by
  rw [Puppy.Memory.add_memory_short_term_eq]
  refine ⟨Puppy.Memory.sortTrim_sorted _ _, ?_, Puppy.Memory.sortTrim_dominance _ _⟩
  rw [Puppy.Memory.sortTrim_length]
  simp

/-- C4 (witness): the amended theorem at a concrete one-entry store. -/
theorem c4_short_term_eviction_w :
    List.Sorted Puppy.Memory.entryGe
      (Puppy.Memory.add_memory (Puppy.Memory.mkMemory 1 10 (6/10)) (some [])
        "market").short_term ∧
    (Puppy.Memory.add_memory (Puppy.Memory.mkMemory 1 10 (6/10)) (some [])
        "market").short_term.length = 1 :=
  ⟨(c4_short_term_eviction (Puppy.Memory.mkMemory 1 10 (6/10)) (some []) "market").1,
   ((c4_short_term_eviction (Puppy.Memory.mkMemory 1 10 (6/10)) (some []) "market").2.1).trans
     (by decide)⟩

/-- C7 (counterexample): recording one entry whose importance 1.0 clears
the 0.6 threshold copies it into BOTH tiers; recall then returns it
TWICE (once from each tier), so "each qualifying entry appearing once"
is false. -/
theorem c7_recall_cex :
    ((Puppy.Memory.retrieve_relevant_memories
        (Puppy.Memory.add_memory (Puppy.Memory.mkMemory 10 10 (6/10)) dataHigh
          "market") "query").map Puppy.Memory.Entry.timestamp) = [0, 0] := by
  with_unfolding_all decide

/-- C7 (amended): recall returns exactly the entries at or above the
relevance threshold drawn from the short-term tier followed by those
from the long-term tier — an entry present in both tiers therefore
appears once per tier (typically twice) — and, for any store produced by
`add_memory`, each tier's contribution is ordered most-important first
with most-recent breaking ties. -/
theorem c7_recall_contract :
    (∀ (st : Puppy.Memory.MemoryState) (q : String) (e : Puppy.Memory.Entry),
      e ∈ Puppy.Memory.retrieve_relevant_memories st q ↔
        (st.relevance_threshold ≤ e.importance_score ∧
          (e ∈ st.short_term ∨ e ∈ st.long_term))) ∧
    (∀ (store : Puppy.Memory.MemoryState) (data : Puppy.Memory.MemoryData)
      (mtype : String) (θ : Rat),
      List.Sorted Puppy.Memory.entryGe
        ((Puppy.Memory.add_memory store data mtype).short_term.filter
          (fun m => decide (θ ≤ m.importance_score))) ∧
      List.Sorted Puppy.Memory.entryGe
        ((Puppy.Memory.add_memory store data mtype).long_term.filter
          (fun m => decide (θ ≤ m.importance_score)))) := by
  constructor
  · intro st q e
    unfold Puppy.Memory.retrieve_relevant_memories
    simp only [List.mem_append, List.mem_filter, decide_eq_true_eq]
    tauto
  · intro store data mtype θ
    exact ⟨List.Pairwise.sublist (List.filter_sublist _)
        (Puppy.Memory.add_memory_short_sorted store data mtype),
      List.Pairwise.sublist (List.filter_sublist _)
        (Puppy.Memory.add_memory_long_sorted store data mtype)⟩

/-- C3 (witness): the amended theorem's TRADE clause at a concrete empty
content dict. -/
theorem c3_importance_scoring_w :
    TradingSystem.calculate_importance_score "TRADE"
      { price_change_1d := none, sentiment := none, rsi := none } = 8/10 :=
  c3_importance_scoring.2.1 { price_change_1d := none, sentiment := none, rsi := none }

/-- C7 (witness): the amended theorem's ordering clause at a concrete
store and threshold. -/
theorem c7_recall_contract_w :
    List.Sorted Puppy.Memory.entryGe
      ((Puppy.Memory.add_memory (Puppy.Memory.mkMemory 10 10 (6/10)) (some [])
        "market").short_term.filter
          (fun m => decide ((6:Rat)/10 ≤ m.importance_score))) ∧
    List.Sorted Puppy.Memory.entryGe
      ((Puppy.Memory.add_memory (Puppy.Memory.mkMemory 10 10 (6/10)) (some [])
        "market").long_term.filter
          (fun m => decide ((6:Rat)/10 ≤ m.importance_score))) :=
  c7_recall_contract.2 (Puppy.Memory.mkMemory 10 10 (6/10)) (some []) "market" (6/10)
